import Mathlib

/-!
Shallow embedding of the QuantConnect regime risk-budget allocator
(`src/main.py`, `src/ceiling_risk_cap.py`, `src/DCA.py`) and proofs of the
specification's claims about it.

Floating-point quantities of the source are embedded as exact rationals `ℚ`
(for all threshold/budget arithmetic) and as reals `ℝ` for the volatility
computation, whose transcendental pieces (`np.log`, `np.sqrt`) are passed as
function parameters so the definitions stay executable; theorems instantiate
them with `Real.log` and `Real.sqrt`.
-/

namespace Portfolio

/-! ## Regimes and hysteresis (`ClampTier`) -/

/-- The four market regimes, ordered Calm < Alert < Stress < Panic
(`order = ["Calm", "Alert", "Stress", "Panic"]`). -/
inductive Regime where
  | Calm
  | Alert
  | Stress
  | Panic
deriving DecidableEq, Repr, Fintype

/-- Index of a regime in the `order` list (`order.index`). -/
def regimeIndex : Regime → Nat
  | .Calm => 0
  | .Alert => 1
  | .Stress => 2
  | .Panic => 3

/-- List indexing `order[n]` of the source, including Python's negative
index `-1` wrapping to the last element. -/
def regimeOfIndex (n : Int) : Regime :=
  if n = 0 then .Calm
  else if n = 1 then .Alert
  else if n = 2 then .Stress
  else .Panic

/-- `ClampTier(current, proposed)` from `main.py` (identical in the other
variants): fast de-risking, slow re-risking. -/
def clampTier (current proposed : Regime) : Regime :=
  let ci : Int := regimeIndex current
  let pi : Int := regimeIndex proposed
  if pi > ci then proposed
  else if pi < ci - 1 then regimeOfIndex (ci - 1)
  else proposed

/-! ## Regime classifier (`UpdateSignals` transition rules) -/

/-- The per-cycle signal bundle the classifier reads (floats of the source
embedded as exact rationals; `days_below_sma50` is a nonnegative counter). -/
structure Snapshot where
  volRatio : ℚ
  dd20 : ℚ
  daysBelowSma50 : Nat
  rsi : ℚ
  close : ℚ
  sma50 : ℚ
deriving DecidableEq, Repr

/-- Panic rule: `vol_ratio > 1.60 or dd20 <= -0.08`. -/
def panicCond (s : Snapshot) : Prop :=
  s.volRatio > (1.60 : ℚ) ∨ s.dd20 ≤ -(0.08 : ℚ)

instance (s : Snapshot) : Decidable (panicCond s) := by
  unfold panicCond; infer_instance

/-- Stress rule: `vol_ratio >= 1.40 and days_below_sma50 >= 4 and rsi < 40`. -/
def stressCond (s : Snapshot) : Prop :=
  s.volRatio ≥ (1.40 : ℚ) ∧ s.daysBelowSma50 ≥ 4 ∧ s.rsi < 40

instance (s : Snapshot) : Decidable (stressCond s) := by
  unfold stressCond; infer_instance

/-- Alert rule: `vol_ratio >= 1.25 and days_below_sma50 >= 2 and rsi < 45`. -/
def alertCond (s : Snapshot) : Prop :=
  s.volRatio ≥ (1.25 : ℚ) ∧ s.daysBelowSma50 ≥ 2 ∧ s.rsi < 45

instance (s : Snapshot) : Decidable (alertCond s) := by
  unfold alertCond; infer_instance

/-- Calm rule: `vol_ratio < 1.15 and close >= sma50 and rsi > 50`. -/
def calmCond (s : Snapshot) : Prop :=
  s.volRatio < (1.15 : ℚ) ∧ s.close ≥ s.sma50 ∧ s.rsi > 50

instance (s : Snapshot) : Decidable (calmCond s) := by
  unfold calmCond; infer_instance

/-- The candidate-regime computation of `UpdateSignals`: the
`if/elif` chain starting from `new_regime = self.regime`. -/
def newRegime (current : Regime) (s : Snapshot) : Regime :=
  if panicCond s then .Panic
  else if stressCond s then .Stress
  else if alertCond s then .Alert
  else if calmCond s then .Calm
  else current

/-! ## Drawdown governor (`RiskScaleFromDrawdown`) -/

/-- `self.dd_buffer` of `Initialize`. -/
def ddBuffer : ℚ := 0.12

/-- `self.dd_target` of `Initialize`. -/
def ddTarget : ℚ := 0.25

/-- `self.min_risk_scale` of `Initialize`. -/
def minRiskScale : ℚ := 0.20

/-- `RiskScaleFromDrawdown` from `main.py` (including the dead `span <= 0`
guard and the `min(1.0, ...)` clamp; `t` inlined). -/
def riskScaleFromDrawdown (dd : ℚ) : ℚ :=
  if dd ≤ ddBuffer then 1
  else if dd ≥ ddTarget then minRiskScale
  else if ddTarget - ddBuffer ≤ 0 then minRiskScale
  else
    max minRiskScale
      (min 1 (1 - (dd - ddBuffer) / (ddTarget - ddBuffer) * (1 - minRiskScale)))

/-- `RiskScaleFromDrawdown` from `DCA.py` (no span guard, no upper clamp). -/
def riskScaleDCA (dd : ℚ) : ℚ :=
  if dd ≤ ddBuffer then 1
  else if dd ≥ ddTarget then minRiskScale
  else
    max minRiskScale
      (1 - (dd - ddBuffer) / (ddTarget - ddBuffer) * (1 - minRiskScale))

/-- The governor's output always stays in `[minRiskScale, 1]`. -/
theorem riskScale_bounds (dd : ℚ) :
    minRiskScale ≤ riskScaleFromDrawdown dd ∧ riskScaleFromDrawdown dd ≤ 1 := by
  unfold riskScaleFromDrawdown minRiskScale ddBuffer ddTarget
  split_ifs with h1 h2 h3
  · norm_num
  · norm_num
  · norm_num
  · constructor
    · exact le_max_left _ _
    · refine max_le (by norm_num) (min_le_left _ _)

/-- Below the buffer the governor returns 1. -/
theorem riskScale_low (dd : ℚ) (h : dd ≤ ddBuffer) :
    riskScaleFromDrawdown dd = 1 := by
  rw [riskScaleFromDrawdown, if_pos h]

/-- At or beyond the target drawdown the governor returns the floor. -/
theorem riskScale_high (dd : ℚ) (h : ddTarget ≤ dd) :
    riskScaleFromDrawdown dd = minRiskScale := by
  rcases le_or_lt dd ddBuffer with hb | hb
  · exfalso
    rw [ddBuffer] at hb; rw [ddTarget] at h
    linarith
  · rw [riskScaleFromDrawdown, if_neg (not_le.mpr hb), if_pos h]

/-- Strictly between buffer and target the governor is the linear
interpolation (the `min 1` clamp is a no-op there). -/
theorem riskScale_mid (dd : ℚ) (h1 : ddBuffer < dd) (h2 : dd < ddTarget) :
    riskScaleFromDrawdown dd =
      max minRiskScale
        (1 - (dd - ddBuffer) / (ddTarget - ddBuffer) * (1 - minRiskScale)) := by
  rw [riskScaleFromDrawdown, if_neg (not_le.mpr h1), if_neg (not_le.mpr h2),
    if_neg (by rw [ddBuffer, ddTarget]; norm_num)]
  congr 1
  apply min_eq_right
  have hnum : (0 : ℚ) ≤ dd - ddBuffer := by linarith
  have hden : (0 : ℚ) < ddTarget - ddBuffer := by
    rw [ddBuffer, ddTarget]; norm_num
  have ht : (0 : ℚ) ≤ (dd - ddBuffer) / (ddTarget - ddBuffer) :=
    div_nonneg hnum hden.le
  have hm : (0 : ℚ) ≤ 1 - minRiskScale := by rw [minRiskScale]; norm_num
  nlinarith

/-! ## Claims C1, C5, C6 -/

/-- C1: over the 4-level order Calm < Alert < Stress < Panic, `ClampTier`
returns the candidate unchanged when the candidate's index exceeds the
current index (any-size escalation), returns exactly one tier below the
current regime when the candidate is more than one tier below it
(Panic with candidate Calm yields Stress, never Calm), and returns the
candidate in all other cases. -/
theorem clampTier_spec : ∀ c p : Regime,
    (regimeIndex c < regimeIndex p → clampTier c p = p) ∧
    (regimeIndex p + 1 < regimeIndex c →
      regimeIndex (clampTier c p) = regimeIndex c - 1) ∧
    (regimeIndex p ≤ regimeIndex c → regimeIndex c ≤ regimeIndex p + 1 →
      clampTier c p = p) ∧
    clampTier .Panic .Calm = .Stress := by
  decide

/-- Witness for C1: Panic with candidate Calm de-escalates exactly one
tier (to Stress). -/
theorem clampTier_spec_witness :
    regimeIndex (clampTier .Panic .Calm) = regimeIndex .Panic - 1 :=
  (clampTier_spec .Panic .Calm).2.1 (by decide)

/-- C5: the classifier's transition rules are evaluated in the fixed
priority order Panic, Stress, Alert, Calm with first match winning (so
when the Panic and Stress conditions hold simultaneously the candidate is
Panic), and when no rule matches the candidate equals the current regime. -/
theorem newRegime_priority : ∀ (s : Snapshot) (current : Regime),
    (panicCond s → newRegime current s = .Panic) ∧
    (¬panicCond s → stressCond s → newRegime current s = .Stress) ∧
    (¬panicCond s → ¬stressCond s → alertCond s →
      newRegime current s = .Alert) ∧
    (¬panicCond s → ¬stressCond s → ¬alertCond s → calmCond s →
      newRegime current s = .Calm) ∧
    (¬panicCond s → ¬stressCond s → ¬alertCond s → ¬calmCond s →
      newRegime current s = current) := by
  intro s current
  refine ⟨?_, ?_, ?_, ?_, ?_⟩ <;> intros <;> simp_all [newRegime]

/-- Witness for C5: a snapshot satisfying both the Panic condition
(volRatio = 2 > 1.60) and the Stress condition (volRatio ≥ 1.40,
5 days below the 50-DMA, rsi = 30 < 40) classifies as Panic. -/
theorem newRegime_priority_witness :
    panicCond ⟨2, -(1/10), 5, 30, 90, 100⟩ ∧
    stressCond ⟨2, -(1/10), 5, 30, 90, 100⟩ ∧
    newRegime .Calm ⟨2, -(1/10), 5, 30, 90, 100⟩ = .Panic :=
  ⟨by norm_num [panicCond], by norm_num [stressCond],
    (newRegime_priority ⟨2, -(1/10), 5, 30, 90, 100⟩ .Calm).1
      (by norm_num [panicCond])⟩

/-- C6: with buffer = 0.12, target = 0.25, floor = 0.20, the governor
returns 1 for dd ≤ buffer, the floor for dd ≥ target, and the linear
interpolation `max (floor) (1 - t * (1 - floor))` in between; the result
always lies in `[0.20, 1]`, and `riskScale 0.12 = 1`,
`riskScale 0.25 = 0.20`, `riskScale 0.185 = 0.60`. -/
theorem riskScale_spec : ∀ dd : ℚ,
    (dd ≤ (0.12 : ℚ) → riskScaleFromDrawdown dd = 1) ∧
    ((0.25 : ℚ) ≤ dd → riskScaleFromDrawdown dd = (0.20 : ℚ)) ∧
    ((0.12 : ℚ) < dd → dd < (0.25 : ℚ) →
      riskScaleFromDrawdown dd =
        max (0.20 : ℚ)
          (1 - (dd - (0.12 : ℚ)) / ((0.25 : ℚ) - (0.12 : ℚ)) *
            (1 - (0.20 : ℚ)))) ∧
    ((0.20 : ℚ) ≤ riskScaleFromDrawdown dd ∧ riskScaleFromDrawdown dd ≤ 1) ∧
    riskScaleFromDrawdown (0.12 : ℚ) = 1 ∧
    riskScaleFromDrawdown (0.25 : ℚ) = (0.20 : ℚ) ∧
    riskScaleFromDrawdown (0.185 : ℚ) = (0.60 : ℚ) := by
  intro dd
  refine ⟨?_, ?_, ?_, riskScale_bounds dd,
    riskScale_low _ (by rw [ddBuffer]),
    by rw [riskScale_high _ (by rw [ddTarget]), minRiskScale],
    ?_⟩
  · intro h
    exact riskScale_low dd (by rw [ddBuffer]; exact h)
  · intro h
    rw [riskScale_high dd (by rw [ddTarget]; exact h), minRiskScale]
  · intro h1 h2
    rw [riskScale_mid dd (by rw [ddBuffer]; exact h1) (by rw [ddTarget]; exact h2),
      ddBuffer, ddTarget, minRiskScale]
  · rw [riskScale_mid (0.185 : ℚ) (by rw [ddBuffer]; norm_num)
      (by rw [ddTarget]; norm_num), ddBuffer, ddTarget, minRiskScale]
    rw [show (1 : ℚ) - ((0.185 : ℚ) - 0.12) / ((0.25 : ℚ) - 0.12) * (1 - 0.20)
        = (0.60 : ℚ) by norm_num]
    exact max_eq_right (by norm_num)

/-- Witness for C6: at dd = 0.185 (midpoint) the governor evaluates to 0.60
via the interpolation branch of the theorem. -/
theorem riskScale_spec_witness :
    riskScaleFromDrawdown (0.185 : ℚ) =
      max (0.20 : ℚ)
        (1 - ((0.185 : ℚ) - (0.12 : ℚ)) / ((0.25 : ℚ) - (0.12 : ℚ)) *
          (1 - (0.20 : ℚ))) :=
  (riskScale_spec (0.185 : ℚ)).2.2.1 (by norm_num) (by norm_num)

/-! ## Rebalance (`Rebalance` of `main.py`) -/

/-- The three traded assets. -/
inductive Asset where
  | spy
  | tlt
  | gld
deriving DecidableEq, Repr

/-- `self.leverage` (IG proxy 1:20), identical for every asset. -/
def leverage : ℚ := 20

/-- `self.margin_budget_by_regime`. -/
def marginBudgetByRegime : Regime → ℚ
  | .Calm => 0.12
  | .Alert => 0.09
  | .Stress => 0.06
  | .Panic => 0.04

/-- `self.weights[regime]["spy"]`. -/
def weightSpy : Regime → ℚ
  | .Calm => 0.55
  | .Alert => 0.45
  | .Stress => 0.30
  | .Panic => 0.20

/-- `self.weights[regime]["tlt"]`. -/
def weightTlt : Regime → ℚ
  | .Calm => 0.35
  | .Alert => 0.35
  | .Stress => 0.35
  | .Panic => 0.30

/-- `self.weights[regime]["gld"]`. -/
def weightGld : Regime → ℚ
  | .Calm => 0.10
  | .Alert => 0.10
  | .Stress => 0.10
  | .Panic => 0.10

/-- `self.calm_min_effective_margin_pct`. -/
def calmMinEffectivePct : ℚ := 0.07

/-- The mutable fields `Rebalance` reads and writes
(`last_rebalance_week`, `last_regime`, `last_effective_pct`,
`last_spy_weight_multiplier`; the latter two start as `None`). -/
structure GateState where
  lastRebalanceWeek : Int
  lastRegime : Regime
  lastEffectivePct : Option ℚ
  lastSpyMult : Option ℚ
deriving DecidableEq, Repr

/-- The per-invocation observations `Rebalance` reads: ISO week number,
total equity, the post-`UpdateSignals` regime, the tracked drawdown,
the SPY close, and the 200-day SMA (`none` while the indicator is not
ready, in which case the source substitutes the close). -/
structure RebInput where
  week : Int
  equity : ℚ
  regime : Regime
  currentDd : ℚ
  close : ℚ
  sma200 : Option ℚ
deriving DecidableEq, Repr

/-- The `sma200` value used: `self.sma200.Current.Value` when ready,
otherwise `close`. -/
def sma200Val (i : RebInput) : ℚ := i.sma200.getD i.close

/-- `effective_pct`: base budget times the drawdown risk scale, with the
Calm recovery floor clamped by the Calm base ceiling. -/
def effectivePct (i : RebInput) : ℚ :=
  if i.regime = .Calm then
    min (max (marginBudgetByRegime i.regime * riskScaleFromDrawdown i.currentDd)
          calmMinEffectivePct)
      (marginBudgetByRegime i.regime)
  else marginBudgetByRegime i.regime * riskScaleFromDrawdown i.currentDd

/-- `extended_calm`: Calm regime with `sma200 > 0` and
`close > 1.05 * sma200`. -/
def extendedCalm (i : RebInput) : Prop :=
  i.regime = .Calm ∧ sma200Val i > 0 ∧ i.close > (1.05 : ℚ) * sma200Val i

instance (i : RebInput) : Decidable (extendedCalm i) := by
  unfold extendedCalm; infer_instance

/-- `spy_weight_multiplier`: 0.85 during extended Calm, else 1. -/
def spyMult (i : RebInput) : ℚ := if extendedCalm i then 0.85 else 1

/-- `effective_changed` of the change gate (`True` when no previous
effective pct is stored). -/
def effectiveChanged (s : GateState) (i : RebInput) : Prop :=
  match s.lastEffectivePct with
  | none => True
  | some lp => |effectivePct i - lp| ≥ (0.01 : ℚ)

instance (s : GateState) (i : RebInput) : Decidable (effectiveChanged s i) := by
  unfold effectiveChanged
  cases s.lastEffectivePct <;> exact inferInstance

/-- `regime_changed` of the change gate. -/
def regimeChanged (s : GateState) (i : RebInput) : Prop :=
  i.regime ≠ s.lastRegime

instance (s : GateState) (i : RebInput) : Decidable (regimeChanged s i) := by
  unfold regimeChanged; infer_instance

/-- `spy_mult_changed` of the change gate (`True` when no previous
multiplier is stored). -/
def spyMultChanged (s : GateState) (i : RebInput) : Prop :=
  match s.lastSpyMult with
  | none => True
  | some lm => |spyMult i - lm| > (1e-9 : ℚ)

instance (s : GateState) (i : RebInput) : Decidable (spyMultChanged s i) := by
  unfold spyMultChanged
  cases s.lastSpyMult <;> exact inferInstance

/-- Per-asset notional target values
`w * margin_budget * leverage` (with the brake multiplier already applied
to SPY), in the source's dictionary order SPY, TLT, GLD. -/
def targetsValue (r : Regime) (mult : ℚ) (mb : ℚ) : List (Asset × ℚ) :=
  [(.spy, weightSpy r * mult * mb * leverage),
   (.tlt, weightTlt r * mb * leverage),
   (.gld, weightGld r * mb * leverage)]

/-- One invocation of `Rebalance` from `main.py` (after the inner
`UpdateSignals` refresh, whose outcome is part of the input): returns the
emitted `PortfolioTarget` fractions (`none` when the cycle aborts or is
gated away) and the updated state. -/
def rebalanceStep (s : GateState) (i : RebInput) :
    Option (List (Asset × ℚ)) × GateState :=
  if i.week = s.lastRebalanceWeek then (none, s)
  else if i.equity ≤ 0 then (none, s)
  else if ¬(regimeChanged s i ∨ effectiveChanged s i ∨ spyMultChanged s i) then
    (none, { s with lastRebalanceWeek := i.week })
  else
    (some ((targetsValue i.regime (spyMult i) (i.equity * effectivePct i)).map
        (fun p => (p.1, p.2 / i.equity))),
      { lastRebalanceWeek := i.week
        lastRegime := i.regime
        lastEffectivePct := some (effectivePct i)
        lastSpyMult := some (spyMult i) })

/-- One invocation of `Rebalance` from `DCA.py`: only the week marker is
kept as state, there is no equity guard and no change gate, `sma200` is
read unconditionally, and targets divide by equity directly. -/
def dcaRebalanceStep (lastWeek : Int) (week : Int) (equity : ℚ)
    (regime : Regime) (dd : ℚ) (close sma200 : ℚ) :
    Option (List (Asset × ℚ)) × Int :=
  if week = lastWeek then (none, lastWeek)
  else
    (some [(.spy, weightSpy regime *
              (if regime = .Calm ∧ close > (1.05 : ℚ) * sma200 then (0.85 : ℚ) else 1) *
              (equity * (if regime = .Calm then
                  min (max (marginBudgetByRegime regime * riskScaleDCA dd)
                        calmMinEffectivePct)
                    (marginBudgetByRegime regime)
                else marginBudgetByRegime regime * riskScaleDCA dd)) *
              leverage / equity),
          (.tlt, weightTlt regime *
              (equity * (if regime = .Calm then
                  min (max (marginBudgetByRegime regime * riskScaleDCA dd)
                        calmMinEffectivePct)
                    (marginBudgetByRegime regime)
                else marginBudgetByRegime regime * riskScaleDCA dd)) *
              leverage / equity),
          (.gld, weightGld regime *
              (equity * (if regime = .Calm then
                  min (max (marginBudgetByRegime regime * riskScaleDCA dd)
                        calmMinEffectivePct)
                    (marginBudgetByRegime regime)
                else marginBudgetByRegime regime * riskScaleDCA dd)) *
              leverage / equity)],
      week)

/-! ## Supporting facts about the allocator -/

/-- Every per-regime base budget is nonnegative. -/
theorem marginBudget_nonneg (r : Regime) : 0 ≤ marginBudgetByRegime r := by
  cases r <;> norm_num [marginBudgetByRegime]

/-- The structural weights are nonnegative and sum to at most 1 in every
regime. -/
theorem weights_nonneg_sum_le_one (r : Regime) :
    0 ≤ weightSpy r ∧ 0 ≤ weightTlt r ∧ 0 ≤ weightGld r ∧
    weightSpy r + weightTlt r + weightGld r ≤ 1 := by
  cases r <;> norm_num [weightSpy, weightTlt, weightGld]

/-- The SPY brake multiplier is between 0 and 1. -/
theorem spyMult_bounds (i : RebInput) : 0 ≤ spyMult i ∧ spyMult i ≤ 1 := by
  unfold spyMult
  split_ifs <;> norm_num

/-- The effective margin percentage is never negative. -/
theorem effectivePct_nonneg (i : RebInput) : 0 ≤ effectivePct i := by
  have hb := marginBudget_nonneg i.regime
  have hrs : (0 : ℚ) ≤ riskScaleFromDrawdown i.currentDd :=
    le_trans (by rw [minRiskScale]; norm_num) (riskScale_bounds i.currentDd).1
  unfold effectivePct
  split_ifs
  · exact le_min
      (le_trans (by rw [calmMinEffectivePct]; norm_num) (le_max_right _ _))
      hb
  · exact mul_nonneg hb hrs

/-! ## Claims C2, C3, C7 -/

/-- C2: whenever `Rebalance` emits targets, the summed margin usage of the
emitted notional values (target fraction times equity, divided by the
per-asset leverage) never exceeds the margin budget
`equity * effectivePct`; in particular total margin can never exceed the
budget, so the uniform-scaling clause is never triggered. -/
theorem rebalance_marginCap (s : GateState) (i : RebInput)
    (ts : List (Asset × ℚ)) (h : (rebalanceStep s i).1 = some ts) :
    (ts.map (fun p => |p.2 * i.equity| / leverage)).sum
      ≤ i.equity * effectivePct i := by
  unfold rebalanceStep at h
  split_ifs at h with h1 h2 h3
  any_goals injection h with h'
  have he : (0 : ℚ) < i.equity := lt_of_not_le h2
  subst h'
  obtain ⟨hws, hwt, hwg, hsum⟩ := weights_nonneg_sum_le_one i.regime
  obtain ⟨hm0, hm1⟩ := spyMult_bounds i
  have hmb : (0 : ℚ) ≤ i.equity * effectivePct i :=
    mul_nonneg he.le (effectivePct_nonneg i)
  have hv1 : (0 : ℚ) ≤ weightSpy i.regime * spyMult i *
      (i.equity * effectivePct i) * 20 :=
    mul_nonneg (mul_nonneg (mul_nonneg hws hm0) hmb) (by norm_num)
  have hv2 : (0 : ℚ) ≤ weightTlt i.regime * (i.equity * effectivePct i) * 20 :=
    mul_nonneg (mul_nonneg hwt hmb) (by norm_num)
  have hv3 : (0 : ℚ) ≤ weightGld i.regime * (i.equity * effectivePct i) * 20 :=
    mul_nonneg (mul_nonneg hwg hmb) (by norm_num)
  simp only [targetsValue, List.map_cons, List.map_nil, List.sum_cons,
    List.sum_nil, add_zero, leverage]
  rw [div_mul_cancel₀ _ he.ne', div_mul_cancel₀ _ he.ne',
    div_mul_cancel₀ _ he.ne']
  rw [abs_of_nonneg hv1, abs_of_nonneg hv2, abs_of_nonneg hv3]
  rw [mul_div_cancel_right₀ _ (by norm_num : (20 : ℚ) ≠ 0),
    mul_div_cancel_right₀ _ (by norm_num : (20 : ℚ) ≠ 0),
    mul_div_cancel_right₀ _ (by norm_num : (20 : ℚ) ≠ 0)]
  have hkey : weightSpy i.regime * spyMult i + weightTlt i.regime +
      weightGld i.regime ≤ 1 := by
    nlinarith [mul_le_mul_of_nonneg_left hm1 hws]
  nlinarith [mul_le_mul_of_nonneg_right hkey hmb]

set_option maxHeartbeats 1000000 in
/-- Witness for C2: a fresh Calm-state rebalance with equity 1000 emits
fractions (1.32, 0.84, 0.24) whose margin usage 120 equals the budget
`1000 * 0.12`. -/
theorem rebalance_marginCap_witness :
    (rebalanceStep ⟨0, .Calm, none, none⟩
        ⟨1, 1000, .Calm, 0, 100, some 100⟩).1
      = some [(.spy, 33/25), (.tlt, 21/25), (.gld, 6/25)] ∧
    ([((Asset.spy : Asset), (33/25 : ℚ)), (.tlt, 21/25), (.gld, 6/25)].map
        (fun p => |p.2 * (1000 : ℚ)| / leverage)).sum
      ≤ (1000 : ℚ) * effectivePct ⟨1, 1000, .Calm, 0, 100, some 100⟩ := by
  have hep : effectivePct ⟨1, 1000, .Calm, 0, 100, some 100⟩ = (0.12 : ℚ) := by
    unfold effectivePct
    rw [if_pos rfl, riskScale_low _ (by norm_num [ddBuffer])]
    norm_num [marginBudgetByRegime, calmMinEffectivePct, max_def, min_def]
  have hsm : spyMult ⟨1, 1000, .Calm, 0, 100, some 100⟩ = 1 := by
    unfold spyMult
    rw [if_neg]
    intro hec
    replace hec := hec.2.2
    replace hec : (100 : ℚ) > (1.05 : ℚ) * 100 := hec
    norm_num at hec
  have h : (rebalanceStep ⟨0, .Calm, none, none⟩
      ⟨1, 1000, .Calm, 0, 100, some 100⟩).1
      = some [(.spy, 33/25), (.tlt, 21/25), (.gld, 6/25)] := by
    have hch : effectiveChanged ⟨0, .Calm, none, none⟩
        ⟨1, 1000, .Calm, 0, 100, some 100⟩ := True.intro
    unfold rebalanceStep
    rw [if_neg (by decide), if_neg (by norm_num),
      if_neg (not_not_intro (Or.inr (Or.inl hch)))]
    show some ((targetsValue Regime.Calm
        (spyMult ⟨1, 1000, .Calm, 0, 100, some 100⟩)
        ((1000 : ℚ) * effectivePct ⟨1, 1000, .Calm, 0, 100, some 100⟩)).map
          (fun p => (p.1, p.2 / (1000 : ℚ))))
      = some [(.spy, 33/25), (.tlt, 21/25), (.gld, 6/25)]
    rw [hep, hsm]
    simp only [targetsValue, List.map_cons, List.map_nil, leverage]
    norm_num [weightSpy, weightTlt, weightGld]
  refine ⟨h, ?_⟩
  have h2 := rebalance_marginCap _ _ _ h
  convert h2 using 2

/-- C3: at non-positive equity the `main.py` variant aborts the cycle with
no targets and no state change, but the `DCA.py` variant has no equity
guard: with equity = -1000 it still emits targets (and at equity = 0 the
Python source would divide by zero). -/
theorem nonPositiveEquity_dca_divergence :
    (rebalanceStep ⟨0, .Calm, none, none⟩
        ⟨1, -1000, .Calm, 0, 100, some 100⟩)
      = (none, ⟨0, .Calm, none, none⟩) ∧
    (dcaRebalanceStep 0 1 (-1000) .Calm 0 100 100).1
      = some [(.spy, 33/25), (.tlt, 21/25), (.gld, 6/25)] := by
  constructor
  · unfold rebalanceStep
    rw [if_neg (by decide), if_pos (by norm_num)]
  · unfold dcaRebalanceStep
    rw [if_neg (by decide)]
    have hrs : riskScaleDCA (0 : ℚ) = 1 := by
      unfold riskScaleDCA
      rw [if_pos (by norm_num [ddBuffer])]
    simp only [hrs]
    norm_num [weightSpy, weightTlt, weightGld, marginBudgetByRegime,
      calmMinEffectivePct, leverage, max_def, min_def]

/-- Gate-state comparison form of the change gate: a rebalance in a new
week with positive equity whose regime, effective pct (within 0.01) and
SPY multiplier agree with the STORED gate values emits nothing and only
advances the week marker. -/
theorem changeGate_skip (s : GateState) (i : RebInput) (lp lm : ℚ)
    (hw : i.week ≠ s.lastRebalanceWeek) (he : 0 < i.equity)
    (hr : i.regime = s.lastRegime)
    (hlp : s.lastEffectivePct = some lp)
    (hd : |effectivePct i - lp| < (0.01 : ℚ))
    (hlm : s.lastSpyMult = some lm) (hm : spyMult i = lm) :
    rebalanceStep s i = (none, { s with lastRebalanceWeek := i.week }) := by
  unfold rebalanceStep
  rw [if_neg hw, if_neg (not_le.mpr he), if_pos]
  rintro (h | h | h)
  · exact h hr
  · replace h : |effectivePct i - lp| ≥ (0.01 : ℚ) := by
      unfold effectiveChanged at h
      rw [hlp] at h
      exact h
    exact absurd h (not_le.mpr hd)
  · replace h : |spyMult i - lm| > (1e-9 : ℚ) := by
      unfold spyMultChanged at h
      rw [hlm] at h
      exact h
    rw [hm, sub_self, abs_zero] at h
    exact absurd h (by norm_num)

/-- Witness for the gate-state change gate: stored state (week 1, Calm,
pct 0.12, multiplier 1) and a week-2 Calm evaluation with the same
effective pct and multiplier is skipped, advancing only the week marker. -/
theorem changeGate_skip_witness :
    ((2 : Int) ≠ (1 : Int)) ∧ ((0 : ℚ) < 1000) ∧
    rebalanceStep ⟨1, .Calm, some (0.12 : ℚ), some 1⟩
        ⟨2, 1000, .Calm, 0, 100, some 100⟩
      = (none, ⟨2, .Calm, some (0.12 : ℚ), some 1⟩) := by
  have hep : effectivePct ⟨2, 1000, .Calm, 0, 100, some 100⟩ = (0.12 : ℚ) := by
    unfold effectivePct
    rw [if_pos rfl, riskScale_low _ (by norm_num [ddBuffer])]
    norm_num [marginBudgetByRegime, calmMinEffectivePct, max_def, min_def]
  have hsm : spyMult ⟨2, 1000, .Calm, 0, 100, some 100⟩ = 1 := by
    unfold spyMult
    rw [if_neg]
    intro hec
    replace hec : (100 : ℚ) > (1.05 : ℚ) * 100 := hec.2.2
    norm_num at hec
  refine ⟨by decide, by norm_num, ?_⟩
  exact changeGate_skip _ _ (0.12 : ℚ) 1 (by decide) (by norm_num) rfl rfl
    (by rw [hep]; norm_num) rfl hsm

/-- The stored gate state after an emission at effective pct 0.12
(week 1, Calm, multiplier 1). -/
def exGate : GateState := ⟨1, .Calm, some (0.12 : ℚ), some 1⟩

/-- First evaluation of the counterexample pair: week 2, drawdown
0.1321875, giving effective pct 0.111. -/
def exEval1 : RebInput := ⟨2, 1000, .Calm, 423/3200, 100, some 100⟩

/-- Second evaluation of the counterexample pair: week 3, drawdown
0.144375, giving effective pct 0.102. -/
def exEval2 : RebInput := ⟨3, 1000, .Calm, 231/1600, 100, some 100⟩

/-- Counterexample to C7 as stated: two consecutive weekly evaluations
(the first of which is itself skipped by the gate) in distinct weeks with
positive equity, equal regimes, equal SPY multipliers, and effective pcts
differing by only 0.009 < 0.01 — yet the second evaluation emits targets
and rewrites the gate state, because the gate compares against the stored
`lastEffectivePct` = 0.12, from which the second evaluation's 0.102 has
drifted by 0.018 ≥ 0.01. -/
theorem changeGate_counterexample :
    effectivePct exEval1 = (0.111 : ℚ) ∧
    effectivePct exEval2 = (0.102 : ℚ) ∧
    rebalanceStep exGate exEval1 = (none, ⟨2, .Calm, some (0.12 : ℚ), some 1⟩) ∧
    exEval1.week ≠ exEval2.week ∧
    0 < exEval1.equity ∧ 0 < exEval2.equity ∧
    exEval1.regime = exEval2.regime ∧
    |effectivePct exEval2 - effectivePct exEval1| < (0.01 : ℚ) ∧
    spyMult exEval1 = spyMult exEval2 ∧
    (rebalanceStep ⟨2, .Calm, some (0.12 : ℚ), some 1⟩ exEval2).1 ≠ none ∧
    (rebalanceStep ⟨2, .Calm, some (0.12 : ℚ), some 1⟩ exEval2).2.lastEffectivePct
      ≠ some (0.12 : ℚ) := by
  have hrs1 : riskScaleFromDrawdown (423/3200 : ℚ) = 37/40 := by
    rw [riskScale_mid _ (by rw [ddBuffer]; norm_num) (by rw [ddTarget]; norm_num),
      ddBuffer, ddTarget, minRiskScale]
    rw [show (1 : ℚ) - ((423/3200 : ℚ) - 0.12) / ((0.25 : ℚ) - 0.12) * (1 - 0.20)
        = 37/40 by norm_num]
    exact max_eq_right (by norm_num)
  have hrs2 : riskScaleFromDrawdown (231/1600 : ℚ) = 17/20 := by
    rw [riskScale_mid _ (by rw [ddBuffer]; norm_num) (by rw [ddTarget]; norm_num),
      ddBuffer, ddTarget, minRiskScale]
    rw [show (1 : ℚ) - ((231/1600 : ℚ) - 0.12) / ((0.25 : ℚ) - 0.12) * (1 - 0.20)
        = 17/20 by norm_num]
    exact max_eq_right (by norm_num)
  have hep1 : effectivePct exEval1 = (0.111 : ℚ) := by
    unfold effectivePct exEval1
    rw [if_pos rfl]
    rw [show (⟨2, 1000, .Calm, 423/3200, 100, some 100⟩ : RebInput).currentDd
        = (423/3200 : ℚ) from rfl, hrs1]
    norm_num [marginBudgetByRegime, calmMinEffectivePct, max_def, min_def]
  have hep2 : effectivePct exEval2 = (0.102 : ℚ) := by
    unfold effectivePct exEval2
    rw [if_pos rfl]
    rw [show (⟨3, 1000, .Calm, 231/1600, 100, some 100⟩ : RebInput).currentDd
        = (231/1600 : ℚ) from rfl, hrs2]
    norm_num [marginBudgetByRegime, calmMinEffectivePct, max_def, min_def]
  have hsm1 : spyMult exEval1 = 1 := by
    unfold spyMult
    rw [if_neg]
    intro hec
    replace hec : (100 : ℚ) > (1.05 : ℚ) * 100 := hec.2.2
    norm_num at hec
  have hsm2 : spyMult exEval2 = 1 := by
    unfold spyMult
    rw [if_neg]
    intro hec
    replace hec : (100 : ℚ) > (1.05 : ℚ) * 100 := hec.2.2
    norm_num at hec
  have hskip : rebalanceStep exGate exEval1
      = (none, ⟨2, .Calm, some (0.12 : ℚ), some 1⟩) := by
    have hgate : ¬(regimeChanged exGate exEval1 ∨ effectiveChanged exGate exEval1 ∨
        spyMultChanged exGate exEval1) := by
      rintro (h | h | h)
      · exact h rfl
      · replace h : |effectivePct exEval1 - (0.12 : ℚ)| ≥ (0.01 : ℚ) := h
        rw [hep1, ge_iff_le, le_abs] at h
        rcases h with h | h <;> norm_num at h
      · replace h : |spyMult exEval1 - 1| > (1e-9 : ℚ) := h
        rw [hsm1, sub_self, abs_zero] at h
        norm_num at h
    unfold rebalanceStep
    rw [if_neg (by decide), if_neg (by norm_num [exEval1]), if_pos hgate]
    rfl
  have hemit : rebalanceStep ⟨2, .Calm, some (0.12 : ℚ), some 1⟩ exEval2
      = (some ((targetsValue exEval2.regime (spyMult exEval2)
          (exEval2.equity * effectivePct exEval2)).map
            (fun p => (p.1, p.2 / exEval2.equity))),
        ⟨3, .Calm, some (effectivePct exEval2), some (spyMult exEval2)⟩) := by
    have hch : effectiveChanged ⟨2, .Calm, some (0.12 : ℚ), some 1⟩ exEval2 := by
      show |effectivePct exEval2 - (0.12 : ℚ)| ≥ (0.01 : ℚ)
      rw [hep2, ge_iff_le, le_abs]
      right
      norm_num
    unfold rebalanceStep
    rw [if_neg (by decide), if_neg (by norm_num [exEval2]),
      if_neg (not_not_intro (Or.inr (Or.inl hch)))]
    rfl
  refine ⟨hep1, hep2, hskip, by decide, by norm_num [exEval1],
    by norm_num [exEval2], rfl, ?_, ?_, ?_, ?_⟩
  · rw [hep1, hep2, abs_lt]
    constructor <;> norm_num
  · rw [hsm1, hsm2]
  · rw [hemit]
    simp
  · rw [hemit]
    simp only [Option.some.injEq]
    rw [hep2]
    norm_num

/-! ## Peak-equity and drawdown tracking (`UpdateSignals` of `main.py`) -/

/-- Peak update of `UpdateSignals`: the peak is seeded with the first
observed equity (`peak_equity is None`), then raised whenever
`equity > peak_equity`. -/
def peakUpdate (peak : Option ℚ) (equity : ℚ) : ℚ :=
  if peak.getD equity < equity then equity else peak.getD equity

/-- `current_dd` of `UpdateSignals`: 0 when the peak is non-positive,
else `1 - equity / peak_equity`. -/
def ddUpdate (peak : ℚ) (equity : ℚ) : ℚ :=
  if peak ≤ 0 then 0 else 1 - equity / peak

/-- One daily `UpdateSignals` pass over the drawdown-governor state
(stored peak, `current_dd`). -/
def signalsStep (st : Option ℚ × ℚ) (equity : ℚ) : Option ℚ × ℚ :=
  (some (peakUpdate st.1 equity), ddUpdate (peakUpdate st.1 equity) equity)

/-- The governor state after a sequence of daily equity observations,
starting from `peak_equity = None`, `current_dd = 0.0`. -/
def signalsFold (es : List ℚ) : Option ℚ × ℚ := es.foldl signalsStep (none, 0)

/-- The updated peak is at least the incoming equity. -/
theorem peakUpdate_ge (peak : Option ℚ) (e : ℚ) : e ≤ peakUpdate peak e := by
  unfold peakUpdate
  split_ifs with h
  · exact le_refl e
  · cases peak with
    | none => exact le_refl e
    | some p => exact le_of_not_lt h

/-- The updated peak is at least the stored peak. -/
theorem peakUpdate_mono (p e : ℚ) : p ≤ peakUpdate (some p) e := by
  unfold peakUpdate
  split_ifs with h
  · exact (lt_of_lt_of_le h (le_refl e)).le
  · exact le_refl p

/-- Along any all-positive equity sequence the stored peak stays
positive. -/
theorem signalsFold_peak_pos :
    ∀ (es : List ℚ) (st : Option ℚ × ℚ),
      (∀ x ∈ es, 0 < x) → (∀ p, st.1 = some p → 0 < p) →
      ∀ p, (es.foldl signalsStep st).1 = some p → 0 < p := by
  intro es
  induction es with
  | nil => exact fun st _ hst p hp => hst p hp
  | cons e tl ih =>
    intro st hpos hst p hp
    rw [List.foldl_cons] at hp
    have he : 0 < e := hpos e (List.mem_cons_self e tl)
    refine ih (signalsStep st e)
      (fun x hx => hpos x (List.mem_cons_of_mem _ hx)) ?_ p hp
    intro q hq
    have : q = peakUpdate st.1 e := (Option.some.inj hq).symm
    subst this
    exact lt_of_lt_of_le he (peakUpdate_ge st.1 e)

/-- C8: for every all-positive equity sequence, the tracked peak equity is
non-decreasing across cycles (it is updated to `max(peak, equity)`, being
initialized to the first observed equity) and the drawdown
`1 - equity/peak` computed each cycle lies in `[0, 1)`. -/
theorem peakEquity_dd_invariant :
    ∀ (es : List ℚ) (e : ℚ), (∀ x ∈ es, 0 < x) → 0 < e →
      (∀ p, (signalsFold es).1 = some p →
        ∃ q, (signalsFold (es ++ [e])).1 = some q ∧ p ≤ q) ∧
      (0 ≤ (signalsFold (es ++ [e])).2 ∧ (signalsFold (es ++ [e])).2 < 1) := by
  intro es e hpos he
  have happ : signalsFold (es ++ [e]) = signalsStep (signalsFold es) e := by
    unfold signalsFold
    rw [List.foldl_append, List.foldl_cons, List.foldl_nil]
  have hq0 : 0 < peakUpdate (signalsFold es).1 e := by
    cases hsp : (signalsFold es).1 with
    | none => exact lt_of_lt_of_le he (peakUpdate_ge _ e)
    | some p => exact lt_of_lt_of_le he (peakUpdate_ge _ e)
  constructor
  · intro p hp
    refine ⟨peakUpdate (signalsFold es).1 e, ?_, ?_⟩
    · rw [happ]
      rfl
    · rw [hp]
      exact peakUpdate_mono p e
  · have hdd : (signalsFold (es ++ [e])).2
        = ddUpdate (peakUpdate (signalsFold es).1 e) e := by
      rw [happ]
      rfl
    rw [hdd, ddUpdate, if_neg (not_le.mpr hq0)]
    constructor
    · have : e / peakUpdate (signalsFold es).1 e ≤ 1 :=
        (div_le_one hq0).mpr (peakUpdate_ge _ e)
      linarith
    · have : 0 < e / peakUpdate (signalsFold es).1 e := div_pos he hq0
      linarith

/-- Witness for C8: after equities 100, 50, 75 the peak is still 100 and
the drawdown 0.25 lies in `[0, 1)`. -/
theorem peakEquity_dd_invariant_witness :
    ((0 : ℚ) < 75) ∧
    (0 ≤ (signalsFold ([(100 : ℚ), 50] ++ [75])).2 ∧
      (signalsFold ([(100 : ℚ), 50] ++ [75])).2 < 1) :=
  ⟨by norm_num,
    (peakEquity_dd_invariant [(100 : ℚ), 50] 75
      (by
        intro x hx
        rcases List.mem_cons.mp hx with rfl | hx
        · norm_num
        · rcases List.mem_cons.mp hx with rfl | hx
          · norm_num
          · exact absurd hx (List.not_mem_nil x))
      (by norm_num)).2⟩

/-! ## Realized volatility (`RealizedVol20`) -/

/-- Python slice `xs[-n:]`: the `n` most recent entries (all of `xs` when
`n` is at least its length). -/
def takeLast {α : Type} (n : Nat) (xs : List α) : List α :=
  xs.drop (xs.length - n)

/-- `np.diff`: consecutive differences `x[i+1] - x[i]` (polymorphic in the
carrier so the definition has executable code; the theorems instantiate it
at `ℝ`). -/
def diffR {K : Type} [Sub K] : List K → List K
  | a :: b :: rest => (b - a) :: diffR (b :: rest)
  | _ => []

/-- `np.std(xs, ddof=1)`: the sample standard deviation
`sqrt(sum (x - mean)^2 / (n - 1))`, with the square root and the carrier
field passed as parameters so the definition stays executable. -/
def sampleStd {K : Type} [Field K] (sqrt : K → K) (xs : List K) : K :=
  sqrt ((xs.map (fun x => (x - xs.sum / (xs.length : K)) ^ 2)).sum /
    ((xs.length : K) - 1))

/-- `RealizedVol20` from `main.py`: guards for at least 21 closes and
all-positive prices in the last 21, log returns via `np.diff(np.log(.))`,
a (dead) guard for at least 20 returns, and the annualized sample
standard deviation of the last 20 returns. `log` and `sqrt` are the
transcendental collaborators (`np.log`, `np.sqrt`), passed as
parameters. -/
def realizedVol20Main {K : Type} [Field K] (log : ℚ → K) (sqrt : K → K)
    (closes : List ℚ) : Option K :=
  if closes.length < 21 then none
  else if (takeLast 21 closes).any (fun p => decide (p ≤ 0)) then none
  else if (diffR ((takeLast 21 closes).map log)).length < 20 then none
  else some (sampleStd sqrt (takeLast 20 (diffR ((takeLast 21 closes).map log)))
    * sqrt 252 * 100)

/-- `RealizedVol20` from `ceiling_risk_cap.py`: as `main.py` but with no
positivity guard and no return-count guard. -/
def realizedVol20Ceil {K : Type} [Field K] (log : ℚ → K) (sqrt : K → K)
    (closes : List ℚ) : Option K :=
  if closes.length < 21 then none
  else some (sampleStd sqrt (takeLast 20 (diffR ((takeLast 21 closes).map log)))
    * sqrt 252 * 100)

/-- `RealizedVol20` from `DCA.py`: the standard deviation is taken over
all returns of the 21-price slice rather than `rets[-20:]`. -/
def realizedVol20DCA {K : Type} [Field K] (log : ℚ → K) (sqrt : K → K)
    (closes : List ℚ) : Option K :=
  if closes.length < 21 then none
  else some (sampleStd sqrt (diffR ((takeLast 21 closes).map log))
    * sqrt 252 * 100)

/-- Log returns written the way the spec phrases them:
`ln(p[i]/p[i-1])` over consecutive prices. -/
def logRets {K : Type} (log : ℚ → K) : List ℚ → List K
  | a :: b :: rest => log (b / a) :: logRets log (b :: rest)
  | _ => []

/-- Realized 20-day volatility exactly as the spec describes
`realizedVol20()`: unavailable for fewer than 21 closes or a non-positive
price among the most recent 21, otherwise the annualized sample standard
deviation of the most recent 20 log returns `ln(p[i]/p[i-1])` of the most
recent 21 closes. -/
def specRealizedVol20 {K : Type} [Field K] (log : ℚ → K) (sqrt : K → K)
    (closes : List ℚ) : Option K :=
  if closes.length < 21 ∨ ∃ p ∈ takeLast 21 closes, p ≤ 0 then none
  else some (sampleStd sqrt (takeLast 20 (logRets log (takeLast 21 closes)))
    * sqrt 252 * 100)

/-- Taking the last `n` of a list of length at least `n` gives `n`
entries. -/
theorem takeLast_length {α : Type} (n : Nat) (xs : List α)
    (h : n ≤ xs.length) : (takeLast n xs).length = n := by
  unfold takeLast
  rw [List.length_drop]
  omega

/-- Taking at least the whole list is the identity. -/
theorem takeLast_all {α : Type} (n : Nat) (xs : List α)
    (h : xs.length ≤ n) : takeLast n xs = xs := by
  unfold takeLast
  rw [show xs.length - n = 0 by omega, List.drop_zero]

/-- `takeLast` commutes with `map`. -/
theorem takeLast_map {α β : Type} (f : α → β) (n : Nat) (xs : List α) :
    takeLast n (xs.map f) = (takeLast n xs).map f := by
  unfold takeLast
  rw [List.length_map]
  exact (List.map_drop f xs _).symm

/-- Members of `takeLast` are members of the list. -/
theorem mem_of_mem_takeLast {α : Type} {n : Nat} {xs : List α} {a : α}
    (h : a ∈ takeLast n xs) : a ∈ xs :=
  List.mem_of_mem_drop h

/-- `np.diff` shortens a list by one. -/
theorem diffR_length {K : Type} [Sub K] (xs : List K) :
    (diffR xs).length = xs.length - 1 := by
  induction xs with
  | nil => rfl
  | cons a tl ih =>
    cases tl with
    | nil => rfl
    | cons b rest =>
      show ((b - a) :: diffR (b :: rest)).length = (a :: b :: rest).length - 1
      rw [List.length_cons, ih]
      simp [List.length_cons]

/-- Differences are invariant under shifting every entry by a constant. -/
theorem diffR_shift (c : ℝ) (xs : List ℝ) :
    diffR (xs.map (fun x => c + x)) = diffR xs := by
  induction xs with
  | nil => rfl
  | cons a tl ih =>
    cases tl with
    | nil => rfl
    | cons b rest =>
      show (c + b - (c + a)) :: diffR ((b :: rest).map (fun x => c + x))
        = (b - a) :: diffR (b :: rest)
      rw [ih]
      congr 1
      ring

/-- Over positive prices, differencing the logs equals the spec's
`ln(p[i]/p[i-1])` returns. -/
theorem diffR_log_eq_logRets (ps : List ℚ) (hp : ∀ p ∈ ps, 0 < p) :
    diffR (ps.map (fun q : ℚ => Real.log (q : ℝ)))
      = logRets (fun q : ℚ => Real.log (q : ℝ)) ps := by
  induction ps with
  | nil => rfl
  | cons a tl ih =>
    cases tl with
    | nil => rfl
    | cons b rest =>
      have ha : 0 < a := hp a (List.mem_cons_self a _)
      have hb : 0 < b := hp b (List.mem_cons_of_mem _ (List.mem_cons_self b _))
      show (Real.log (b : ℝ) - Real.log (a : ℝ))
          :: diffR ((b :: rest).map (fun q : ℚ => Real.log (q : ℝ)))
        = Real.log ((b / a : ℚ) : ℝ)
          :: logRets (fun q : ℚ => Real.log (q : ℝ)) (b :: rest)
      rw [ih (fun p hp' => hp p (List.mem_cons_of_mem _ hp'))]
      congr 1
      push_cast
      rw [Real.log_div (Rat.cast_ne_zero.mpr hb.ne') (Rat.cast_ne_zero.mpr ha.ne')]

/-- When the window is deep enough and the last 21 prices are positive,
`main.py`'s `RealizedVol20` reaches its final return expression. -/
theorem realizedVol20Main_eq_of_pos {K : Type} [Field K] (log : ℚ → K)
    (sqrt : K → K) (closes : List ℚ) (hlen : 21 ≤ closes.length)
    (hpos : ∀ p ∈ takeLast 21 closes, 0 < p) :
    realizedVol20Main log sqrt closes
      = some (sampleStd sqrt (takeLast 20 (diffR ((takeLast 21 closes).map log)))
          * sqrt 252 * 100) := by
  have hany : ¬((takeLast 21 closes).any (fun p => decide (p ≤ 0)) = true) := by
    rw [List.any_eq_true]
    rintro ⟨p, hmem, hle⟩
    exact absurd (of_decide_eq_true hle) (not_le.mpr (hpos p hmem))
  have hret : (diffR ((takeLast 21 closes).map log)).length = 20 := by
    rw [diffR_length, List.length_map, takeLast_length 21 closes hlen]
  unfold realizedVol20Main
  rw [if_neg (not_lt.mpr hlen), if_neg hany, if_neg (by rw [hret]; norm_num)]

/-! ## Claims C4, C9, C10 -/

/-- C4: for every close window, `main.py`'s `RealizedVol20` (with the real
logarithm and square root) returns `None` exactly when the window holds
fewer than 21 closes or one of the most recent 21 prices is non-positive,
and otherwise returns the annualized sample standard deviation
`stdev(rets, ddof=1) * sqrt(252) * 100` of the most recent 20 log returns
`ln(p[i]/p[i-1])` of the most recent 21 closes, as stated by the spec
(`specRealizedVol20`). -/
theorem realizedVol20_matches_spec (closes : List ℚ) :
    realizedVol20Main (fun q : ℚ => Real.log (q : ℝ)) Real.sqrt closes
      = specRealizedVol20 (fun q : ℚ => Real.log (q : ℝ)) Real.sqrt closes := by
  by_cases h1 : closes.length < 21
  · unfold realizedVol20Main specRealizedVol20
    rw [if_pos h1, if_pos (Or.inl h1)]
  · by_cases h2 : ∃ p ∈ takeLast 21 closes, p ≤ 0
    · unfold realizedVol20Main specRealizedVol20
      have hany : (takeLast 21 closes).any (fun p => decide (p ≤ 0)) = true := by
        rw [List.any_eq_true]
        obtain ⟨p, hmem, hle⟩ := h2
        exact ⟨p, hmem, decide_eq_true hle⟩
      rw [if_neg h1, if_pos hany, if_pos (Or.inr h2)]
    · have hpos : ∀ p ∈ takeLast 21 closes, 0 < p := by
        intro p hmem
        by_contra hc
        exact h2 ⟨p, hmem, le_of_not_lt hc⟩
      rw [realizedVol20Main_eq_of_pos _ _ closes (not_lt.mp h1) hpos]
      unfold specRealizedVol20
      rw [if_neg (not_or.mpr ⟨h1, h2⟩), diffR_log_eq_logRets _ hpos]

/-- C10: for every close window of length at least 21 with only positive
prices, the three variants' `RealizedVol20` implementations agree, for
any choice of the `log`/`sqrt` collaborators (in particular the real
ones): `main.py`'s positivity guard passes, and `rets[-20:]` equals the
full return list since exactly 20 returns exist. -/
theorem realizedVol20_variants_agree {K : Type} [Field K] (log : ℚ → K)
    (sqrt : K → K) (closes : List ℚ) (hlen : 21 ≤ closes.length)
    (hpos : ∀ p ∈ closes, 0 < p) :
    realizedVol20Main log sqrt closes = realizedVol20Ceil log sqrt closes ∧
    realizedVol20Ceil log sqrt closes = realizedVol20DCA log sqrt closes := by
  have hpos21 : ∀ p ∈ takeLast 21 closes, 0 < p :=
    fun p hp => hpos p (mem_of_mem_takeLast hp)
  have hret : (diffR ((takeLast 21 closes).map log)).length = 20 := by
    rw [diffR_length, List.length_map, takeLast_length 21 closes hlen]
  constructor
  · rw [realizedVol20Main_eq_of_pos log sqrt closes hlen hpos21]
    unfold realizedVol20Ceil
    rw [if_neg (not_lt.mpr hlen)]
  · unfold realizedVol20Ceil realizedVol20DCA
    rw [if_neg (not_lt.mpr hlen), if_neg (not_lt.mpr hlen),
      takeLast_all 20 _ (le_of_eq hret)]

/-- Witness for C10: on 21 constant closes of 1 the three variants agree
(each producing volatility 0). -/
theorem realizedVol20_variants_agree_witness :
    realizedVol20Main (fun q : ℚ => Real.log (q : ℝ)) Real.sqrt
        (List.replicate 21 (1 : ℚ))
      = realizedVol20Ceil (fun q : ℚ => Real.log (q : ℝ)) Real.sqrt
        (List.replicate 21 (1 : ℚ)) ∧
    realizedVol20Ceil (fun q : ℚ => Real.log (q : ℝ)) Real.sqrt
        (List.replicate 21 (1 : ℚ))
      = realizedVol20DCA (fun q : ℚ => Real.log (q : ℝ)) Real.sqrt
        (List.replicate 21 (1 : ℚ)) :=
  realizedVol20_variants_agree _ _ (List.replicate 21 (1 : ℚ)) (by simp)
    (fun p hp => by rw [List.eq_of_mem_replicate hp]; norm_num)

/-- C9: for every close window of length at least 21 with only positive
prices, `main.py`'s realized volatility is available and non-negative,
and multiplying every price by a positive scalar `k` leaves the value
unchanged (scale invariance of the log-return computation). -/
theorem realizedVol20_nonneg_scaleInv (closes : List ℚ) (k : ℚ)
    (hlen : 21 ≤ closes.length) (hpos : ∀ p ∈ closes, 0 < p) (hk : 0 < k) :
    (∃ v, realizedVol20Main (fun q : ℚ => Real.log (q : ℝ)) Real.sqrt closes
        = some v ∧ 0 ≤ v) ∧
    realizedVol20Main (fun q : ℚ => Real.log (q : ℝ)) Real.sqrt
        (closes.map (fun p => k * p))
      = realizedVol20Main (fun q : ℚ => Real.log (q : ℝ)) Real.sqrt closes := by
  have hpos21 : ∀ p ∈ takeLast 21 closes, 0 < p :=
    fun p hp => hpos p (mem_of_mem_takeLast hp)
  have heval := realizedVol20Main_eq_of_pos (fun q : ℚ => Real.log (q : ℝ))
    Real.sqrt closes hlen hpos21
  constructor
  · refine ⟨_, heval, ?_⟩
    have h1 : (0 : ℝ) ≤ sampleStd Real.sqrt
        (takeLast 20 (diffR ((takeLast 21 closes).map
          (fun q : ℚ => Real.log (q : ℝ))))) := Real.sqrt_nonneg _
    have h2 : (0 : ℝ) ≤ Real.sqrt 252 := Real.sqrt_nonneg _
    have h3 : (0 : ℝ) ≤ 100 := by norm_num
    exact mul_nonneg (mul_nonneg h1 h2) h3
  · have hlen2 : 21 ≤ (closes.map (fun p => k * p)).length := by
      rw [List.length_map]; exact hlen
    have hpos2 : ∀ p ∈ takeLast 21 (closes.map (fun p => k * p)), 0 < p := by
      intro p hp
      rw [takeLast_map] at hp
      obtain ⟨q, hq, rfl⟩ := List.mem_map.mp hp
      exact mul_pos hk (hpos21 q hq)
    rw [realizedVol20Main_eq_of_pos _ _ _ hlen2 hpos2, heval]
    have hcong : (takeLast 21 closes).map (fun p : ℚ => Real.log ((k * p : ℚ) : ℝ))
        = (takeLast 21 closes).map
          (fun p : ℚ => Real.log (k : ℝ) + Real.log (p : ℝ)) := by
      refine List.map_congr_left ?_
      intro p hp
      push_cast
      rw [Real.log_mul (Rat.cast_ne_zero.mpr hk.ne')
        (Rat.cast_ne_zero.mpr (hpos21 p hp).ne')]
    have hrets : diffR ((takeLast 21 (closes.map (fun p => k * p))).map
          (fun q : ℚ => Real.log (q : ℝ)))
        = diffR ((takeLast 21 closes).map (fun q : ℚ => Real.log (q : ℝ))) := by
      rw [takeLast_map, List.map_map]
      show diffR ((takeLast 21 closes).map
        (fun p : ℚ => Real.log ((k * p : ℚ) : ℝ))) = _
      rw [hcong]
      show diffR ((takeLast 21 closes).map
        ((fun x => Real.log (k : ℝ) + x) ∘ (fun q : ℚ => Real.log (q : ℝ)))) = _
      rw [← List.map_map, diffR_shift]
    rw [hrets]

/-- Witness for C9: 21 constant closes of 1, scaled by k = 2, give an
available non-negative volatility invariant under the scaling. -/
theorem realizedVol20_nonneg_scaleInv_witness :
    (∃ v, realizedVol20Main (fun q : ℚ => Real.log (q : ℝ)) Real.sqrt
        (List.replicate 21 (1 : ℚ)) = some v ∧ 0 ≤ v) ∧
    realizedVol20Main (fun q : ℚ => Real.log (q : ℝ)) Real.sqrt
        ((List.replicate 21 (1 : ℚ)).map (fun p => 2 * p))
      = realizedVol20Main (fun q : ℚ => Real.log (q : ℝ)) Real.sqrt
        (List.replicate 21 (1 : ℚ)) :=
  realizedVol20_nonneg_scaleInv (List.replicate 21 (1 : ℚ)) 2 (by simp)
    (fun p hp => by rw [List.eq_of_mem_replicate hp]; norm_num) (by norm_num)

end Portfolio
